import Mathlib

/-!
Verification of the FreeCAD FEM YAML/JSON mesh reader and writer
(`src/Mod/Fem/feminout/importYAMLJSONMesh.py`).

The Python module is shallowly embedded below.  Python dictionaries are
modelled as key-value lists in insertion order (the meshes and the
deserializers the module consumes produce dictionaries with pairwise
distinct keys, so no merging of duplicate keys is modelled).  Node
coordinates are modelled as integers; the module copies them verbatim and
never computes with them.  Exceptions (`KeyError` from an unsupported
element arity, `ValueError` from `int()` on a malformed key) are modelled
by `Option`, with `none` meaning that the exception escapes.
-/

set_option maxHeartbeats 1000000

/-- Keys of Python dictionaries appearing in mesh records: `int` or `str`. -/
inductive PyKey where
  | intKey : Int → PyKey
  | strKey : String → PyKey
deriving DecidableEq, Repr

/-- Values stored in mesh records: integers, strings, and nested sequences.
Python tuples and lists are both modelled as chains of `.consV` cells ending
in `.nilV` (built with `listV`); the module only moves values around, never
inspects them, so only equality of values matters. -/
inductive PyVal where
  | int : Int → PyVal
  | str : String → PyVal
  | nilV : PyVal
  | consV : PyVal → PyVal → PyVal
deriving DecidableEq, Repr

/-- The `PyVal` sequence holding the given values, in order. -/
def listV (xs : List PyVal) : PyVal := xs.foldr PyVal.consV PyVal.nilV

/-- One bucket of a mesh record: a Python dictionary from keys to values. -/
abbrev Bucket := List (PyKey × PyVal)

/-- A mesh record: a Python dictionary from bucket names to buckets. -/
abbrev Record := List (String × Bucket)

/-- ASCII lower-casing of one character, as `str.lower` does on ASCII. -/
def lowerChar (c : Char) : Char :=
  if 65 ≤ c.toNat ∧ c.toNat ≤ 90 then Char.ofNat (c.toNat + 32) else c

/-- Models Python `str.lower()` on the ASCII strings used by the module. -/
def pyLower (s : String) : String :=
  String.mk (s.data.map lowerChar)

/-- The decimal digit character for `d` (meaningful for `d < 10`). -/
def digitChar (d : Nat) : Char := Char.ofNat (48 + d)

/-- Fuel-based worker for `natDigits` (structural recursion, so that the
kernel can evaluate it on concrete inputs). -/
def natDigitsAux : Nat → Nat → List Char
  | 0, _ => []
  | fuel + 1, n =>
    if n < 10 then [digitChar n]
    else natDigitsAux fuel (n / 10) ++ [digitChar (n % 10)]

/-- The decimal digits of `n`, most significant first. -/
def natDigits (n : Nat) : List Char := natDigitsAux (n + 1) n

lemma natDigitsAux_irrel (n : Nat) :
    ∀ f1 f2 : Nat, n < f1 → n < f2 → natDigitsAux f1 n = natDigitsAux f2 n := by
  induction n using Nat.strong_induction_on with
  | _ n ih =>
    intro f1 f2 h1 h2
    match f1, f2 with
    | m1 + 1, m2 + 1 =>
      rw [natDigitsAux, natDigitsAux]
      by_cases hlt : n < 10
      · simp [hlt]
      · simp only [hlt, if_false]
        have hd : n / 10 < n := Nat.div_lt_self (by omega) (by omega)
        rw [ih (n / 10) hd m1 m2 (by omega) (by omega)]

lemma natDigits_unfold (n : Nat) :
    natDigits n = if n < 10 then [digitChar n]
      else natDigits (n / 10) ++ [digitChar (n % 10)] := by
  rw [natDigits, natDigitsAux]
  by_cases hlt : n < 10
  · simp [hlt]
  · simp only [hlt, if_false]
    have hd : n / 10 < n := Nat.div_lt_self (by omega) (by omega)
    rw [natDigits, natDigitsAux_irrel (n / 10) n (n / 10 + 1) (by omega) (by omega)]

/-- The characters of Python `str(i)` for an integer `i`. -/
def intStrChars : Int → List Char
  | .ofNat n => natDigits n
  | .negSucc n => '-' :: natDigits (n + 1)

/-- Models Python `str(i)` for an integer `i`: minus sign and decimal digits.
This is what the JSON and YAML codecs emit for integer dictionary keys. -/
def intStr (i : Int) : String := String.mk (intStrChars i)

/-- The numeric value of a decimal digit character, `none` otherwise. -/
def digitVal (c : Char) : Option Nat :=
  if 48 ≤ c.toNat ∧ c.toNat ≤ 57 then some (c.toNat - 48) else none

/-- Accumulating decimal parser over a character list. -/
def parseDigitsAux : Nat → List Char → Option Nat
  | acc, [] => some acc
  | acc, c :: cs =>
    match digitVal c with
    | some d => parseDigitsAux (acc * 10 + d) cs
    | none => none

/-- Parses a nonempty run of decimal digits; `none` on anything else. -/
def parseDigits (cs : List Char) : Option Nat :=
  match cs with
  | [] => none
  | c :: cs => parseDigitsAux 0 (c :: cs)

/-- Parser behind `pyInt`, over the character list of the string. -/
def pyIntChars : List Char → Option Int
  | [] => none
  | c :: cs =>
    if c = '-' then (parseDigits cs).map (fun n => -(n : Int))
    else if c = '+' then (parseDigits cs).map (fun n => (n : Int))
    else (parseDigits (c :: cs)).map (fun n => (n : Int))

/-- Models Python `int(s)` on decimal string literals: an optional sign
followed by a nonempty digit run.  `none` models a raised `ValueError`. -/
def pyInt (s : String) : Option Int := pyIntChars s.data

/-- Models Python `int(k)` on a dictionary key: an `int` key passes through
unchanged, a `str` key is parsed. -/
def pyIntOfKey : PyKey → Option Int
  | .intKey n => some n
  | .strKey s => pyInt s

lemma digitVal_digitChar (d : Nat) (h : d < 10) : digitVal (digitChar d) = some d := by
  interval_cases d <;> decide

lemma natDigits_ne_nil (n : Nat) : natDigits n ≠ [] := by
  rw [natDigits_unfold]
  split <;> simp

lemma natDigits_all_digit (n : Nat) :
    ∀ c ∈ natDigits n, 48 ≤ c.toNat ∧ c.toNat ≤ 57 := by
  induction n using Nat.strong_induction_on with
  | _ n ih =>
    rw [natDigits_unfold]
    split
    · intro c hc
      simp only [List.mem_singleton] at hc
      subst hc
      rename_i h
      interval_cases n <;> decide
    · intro c hc
      rename_i h
      rcases List.mem_append.mp hc with h1 | h2
      · exact ih (n / 10) (Nat.div_lt_self (by omega) (by omega)) c h1
      · simp only [List.mem_singleton] at h2
        subst h2
        have hm : n % 10 < 10 := Nat.mod_lt _ (by omega)
        set d := n % 10 with hd
        interval_cases d <;> decide

lemma parseDigitsAux_append (xs ys : List Char) (acc : Nat) :
    parseDigitsAux acc (xs ++ ys) =
      (parseDigitsAux acc xs).bind (fun a => parseDigitsAux a ys) := by
  induction xs generalizing acc with
  | nil => simp [parseDigitsAux]
  | cons c cs ih =>
    simp only [List.cons_append, parseDigitsAux]
    cases digitVal c with
    | none => simp
    | some d => simp [ih]

lemma parseDigitsAux_natDigits (n : Nat) :
    ∀ acc : Nat, parseDigitsAux acc (natDigits n) =
      some (acc * 10 ^ (natDigits n).length + n) := by
  induction n using Nat.strong_induction_on with
  | _ n ih =>
    intro acc
    rw [natDigits_unfold]
    split
    · rename_i h
      simp only [parseDigitsAux, digitVal_digitChar n h, List.length_singleton]
      simp
    · rename_i h
      have hdiv : n / 10 < n := Nat.div_lt_self (by omega) (by omega)
      rw [parseDigitsAux_append]
      rw [ih (n / 10) hdiv acc]
      have hm : n % 10 < 10 := Nat.mod_lt _ (by omega)
      simp only [Option.bind_some, Option.some_bind, parseDigitsAux,
        digitVal_digitChar _ hm]
      have hlen : (natDigits (n / 10) ++ [digitChar (n % 10)]).length =
          (natDigits (n / 10)).length + 1 := by simp
      rw [hlen]
      have key : ∀ A : Nat, (A + n / 10) * 10 + n % 10 = A * 10 + n := by
        intro A; omega
      rw [pow_succ, ← mul_assoc, key]

lemma parseDigits_natDigits (n : Nat) : parseDigits (natDigits n) = some n := by
  cases h : natDigits n with
  | nil => exact absurd h (natDigits_ne_nil n)
  | cons c cs =>
    have := parseDigitsAux_natDigits n 0
    rw [h] at this
    simpa [parseDigits, this] using this

lemma pyInt_intStr (i : Int) : pyInt (intStr i) = some i := by
  cases i with
  | ofNat n =>
    have hdata : (intStr (.ofNat n)).data = natDigits n := rfl
    rw [pyInt, hdata]
    cases h : natDigits n with
    | nil => exact absurd h (natDigits_ne_nil n)
    | cons c cs =>
      have hc : 48 ≤ c.toNat ∧ c.toNat ≤ 57 :=
        natDigits_all_digit n c (h ▸ List.mem_cons_self c cs)
      have hminus : ¬ c = '-' := by
        intro hEq; subst hEq; revert hc; decide
      have hplus : ¬ c = '+' := by
        intro hEq; subst hEq; revert hc; decide
      have e2 : pyIntChars (c :: cs) =
          if c = '-' then (parseDigits cs).map (fun m => -(m : Int))
          else if c = '+' then (parseDigits cs).map (fun m => (m : Int))
          else (parseDigits (c :: cs)).map (fun m => (m : Int)) := rfl
      rw [e2, if_neg hminus, if_neg hplus, ← h, parseDigits_natDigits]
      simp
  | negSucc n =>
    have hdata : (intStr (.negSucc n)).data = '-' :: natDigits (n + 1) := rfl
    rw [pyInt, hdata]
    have e2 : pyIntChars ('-' :: natDigits (n + 1)) =
        (parseDigits (natDigits (n + 1))).map (fun m => -(m : Int)) := rfl
    rw [e2, parseDigits_natDigits]
    simp [Int.negSucc_eq]

/-- A mesh node, exposing the coordinates `v.x`, `v.y`, `v.z` read by the
converter (modelled as integers; the converter copies them verbatim). -/
structure FemNode where
  x : Int
  y : Int
  z : Int
deriving DecidableEq, Repr

/-- The mesh interface consumed by `convert_femmesh_to_dict`: enumerable
edge, face and volume element ids, the node tuple of each element,
the nodes with their coordinates, and the groups with name and members. -/
structure FemMesh where
  Edges : List Nat
  Faces : List Nat
  Volumes : List Nat
  getElementNodes : Nat → List Nat
  Nodes : List (Nat × FemNode)
  Groups : List Nat
  getGroupName : Nat → String
  getGroupElements : Nat → List Nat

/-- The twelve per-topology element lists built up by the converter
(`seg2`, `seg3`, ..., `pent15` in the source). -/
structure ElemAcc where
  seg2 : List (Nat × List Nat)
  seg3 : List (Nat × List Nat)
  tri3 : List (Nat × List Nat)
  tri6 : List (Nat × List Nat)
  quad4 : List (Nat × List Nat)
  quad8 : List (Nat × List Nat)
  tet4 : List (Nat × List Nat)
  tet10 : List (Nat × List Nat)
  hex8 : List (Nat × List Nat)
  hex20 : List (Nat × List Nat)
  pent6 : List (Nat × List Nat)
  pent15 : List (Nat × List Nat)
deriving DecidableEq, Repr

/-- The `for e in femmesh.Edges` loop: appends each edge, as the pair
`(e, t)` of its id and node tuple, to the list `len_to_edge[len(t)]`
selects; `none` models the `KeyError` on an arity outside `{2, 3}`. -/
def analyzeEdges (gN : Nat → List Nat) : List Nat → ElemAcc → Option ElemAcc
  | [], acc => some acc
  | e :: es, acc =>
    let t := gN e
    if t.length = 2 then analyzeEdges gN es { acc with seg2 := acc.seg2 ++ [(e, t)] }
    else if t.length = 3 then analyzeEdges gN es { acc with seg3 := acc.seg3 ++ [(e, t)] }
    else none

/-- The `for f in femmesh.Faces` loop over `len_to_face = {3, 6, 4, 8}`. -/
def analyzeFaces (gN : Nat → List Nat) : List Nat → ElemAcc → Option ElemAcc
  | [], acc => some acc
  | f :: fs, acc =>
    let t := gN f
    if t.length = 3 then analyzeFaces gN fs { acc with tri3 := acc.tri3 ++ [(f, t)] }
    else if t.length = 6 then analyzeFaces gN fs { acc with tri6 := acc.tri6 ++ [(f, t)] }
    else if t.length = 4 then analyzeFaces gN fs { acc with quad4 := acc.quad4 ++ [(f, t)] }
    else if t.length = 8 then analyzeFaces gN fs { acc with quad8 := acc.quad8 ++ [(f, t)] }
    else none

/-- The `for v in femmesh.Volumes` loop over
`len_to_volume = {4, 10, 8, 20, 6, 15}`. -/
def analyzeVolumes (gN : Nat → List Nat) : List Nat → ElemAcc → Option ElemAcc
  | [], acc => some acc
  | v :: vs, acc =>
    let t := gN v
    if t.length = 4 then analyzeVolumes gN vs { acc with tet4 := acc.tet4 ++ [(v, t)] }
    else if t.length = 10 then analyzeVolumes gN vs { acc with tet10 := acc.tet10 ++ [(v, t)] }
    else if t.length = 8 then analyzeVolumes gN vs { acc with hex8 := acc.hex8 ++ [(v, t)] }
    else if t.length = 20 then analyzeVolumes gN vs { acc with hex20 := acc.hex20 ++ [(v, t)] }
    else if t.length = 6 then analyzeVolumes gN vs { acc with pent6 := acc.pent6 ++ [(v, t)] }
    else if t.length = 15 then analyzeVolumes gN vs { acc with pent15 := acc.pent15 ++ [(v, t)] }
    else none

/-- The `PyVal` for a node tuple of an element. -/
def tupleV (t : List Nat) : PyVal := listV (t.map fun n => .int n)

/-- `dict(pairs)` over an element list: keys become `int` keys, node tuples
become sequence values. -/
def dictOf (l : List (Nat × List Nat)) : Bucket :=
  l.map fun p => (.intKey p.1, tupleV p.2)

/-- `convert_femmesh_to_dict(femmesh)`: classifies every edge, face and
volume element by node count into its topology bucket and assembles the
record with the buckets `Nodes`, the twelve element buckets, and `Groups`
(in the dictionary-literal insertion order of the source).  `none` models
the `KeyError` raised on an element arity missing from the tables. -/
def convert_femmesh_to_dict (femmesh : FemMesh) : Option Record :=
  (analyzeEdges femmesh.getElementNodes femmesh.Edges
      ⟨[], [], [], [], [], [], [], [], [], [], [], []⟩).bind fun acc1 =>
  (analyzeFaces femmesh.getElementNodes femmesh.Faces acc1).bind fun acc2 =>
  (analyzeVolumes femmesh.getElementNodes femmesh.Volumes acc2).bind fun acc3 =>
        some [
          ("Nodes", femmesh.Nodes.map fun p =>
            (.intKey p.1, listV [.int p.2.x, .int p.2.y, .int p.2.z])),
          ("Seg2Elem", dictOf acc3.seg2),
          ("Seg3Elem", dictOf acc3.seg3),
          ("Tria3Elem", dictOf acc3.tri3),
          ("Tria6Elem", dictOf acc3.tri6),
          ("Quad4Elem", dictOf acc3.quad4),
          ("Quad8Elem", dictOf acc3.quad8),
          ("Tetra4Elem", dictOf acc3.tet4),
          ("Tetra10Elem", dictOf acc3.tet10),
          ("Hexa8Elem", dictOf acc3.hex8),
          ("Hexa20Elem", dictOf acc3.hex20),
          ("Penta6Elem", dictOf acc3.pent6),
          ("Penta15Elem", dictOf acc3.pent15),
          ("Groups", femmesh.Groups.map fun g : Nat =>
            (.intKey g, listV [.str (femmesh.getGroupName g),
              listV ((femmesh.getGroupElements g).map fun e => .int e)]))
        ]

/-- The `dict([(int(k), v) for (k, v) in type_dict.items()])` comprehension
over one bucket; `none` models the `ValueError` from `int()`. -/
def normBucket : Bucket → Option Bucket
  | [] => some []
  | (k, v) :: rest =>
    match pyIntOfKey k with
    | none => none
    | some n =>
      match normBucket rest with
      | none => none
      | some r => some ((.intKey n, v) :: r)

/-- `convert_raw_data_to_mesh_data(raw_mesh_data)`: for every bucket whose
name, lower-cased, is not `"groups"`, converts the keys with `int()`;
a bucket named (case-insensitively) `"groups"` is skipped.  `none` models
a `ValueError` escaping from `int()`. -/
def convert_raw_data_to_mesh_data : Record → Option Record
  | [] => some []
  | (type_key, type_dict) :: rest =>
    if pyLower type_key = "groups" then
      convert_raw_data_to_mesh_data rest
    else
      match normBucket type_dict with
      | none => none
      | some b =>
        match convert_raw_data_to_mesh_data rest with
        | none => none
        | some r => some ((type_key, b) :: r)

/-- The key as it appears after a pass through a text codec: an `int` key
is rendered as its decimal string, a `str` key is unchanged. -/
def keyToStr : PyKey → PyKey
  | .intKey n => .strKey (intStr n)
  | .strKey s => .strKey s

/-- One bucket after a pass through a text codec: all keys stringified. -/
def strKeysBucket (b : Bucket) : Bucket :=
  b.map fun q => (keyToStr q.1, q.2)

/-- Modelled from the spec: the JSON and YAML codecs themselves are out of
scope and specified only by interface — serialization followed by
deserialization is lossless for the record except that every mapping key
arrives back string-typed (spec §1, §3 round-trip invariant, §6; both
codecs have the same key-stringification behaviour).  This function is the
composition `deserialize ∘ serialize` under that interface. -/
def codec_roundtrip (r : Record) : Record :=
  r.map fun p => (p.1, strKeysBucket p.2)

/-- A record with every bucket key stringified; two records are "equal up
to key type (string vs int)" exactly when their images under this map are
equal. -/
def eraseKeyTypes (r : Record) : Record :=
  r.map fun p => (p.1, strKeysBucket p.2)

/-- The record with the buckets whose lower-cased name is `"groups"`
removed and all other buckets untouched. -/
def dropGroups : Record → Record
  | [] => []
  | (n, b) :: rest =>
    if pyLower n = "groups" then dropGroups rest
    else (n, b) :: dropGroups rest

/-- One bucket with each key coerced to an integer key (`0` standing in for
an unparsable key; only used under the hypothesis that every key parses). -/
def normBucketSpec (b : Bucket) : Bucket :=
  b.map fun q => (.intKey ((pyIntOfKey q.1).getD 0), q.2)

/-- The normalizer described by the spec's words, minus the Groups
pass-through the code does not perform: drop every bucket named
(case-insensitively) `"groups"`, convert the keys of every other bucket
to integers, leave names and values unchanged. -/
def normalizeSpec : Record → Record
  | [] => []
  | (n, b) :: rest =>
    if pyLower n = "groups" then normalizeSpec rest
    else (n, normBucketSpec b) :: normalizeSpec rest

/-- The element list of the ids among `ids` whose node tuple has length
`a`, each paired with its node tuple, in enumeration order. -/
def elemsOfArity (gN : Nat → List Nat) (ids : List Nat) (a : Nat) :
    List (Nat × List Nat) :=
  (ids.filter fun e => (gN e).length = a).map fun e => (e, gN e)

/-- The record described by the spec's §3 arity table and §4.1: each
element sits in exactly the bucket its category and arity select, node
coordinates and groups are copied without transformation. -/
def spec_record (m : FemMesh) : Record :=
  [("Nodes", m.Nodes.map fun p =>
      (.intKey p.1, listV [.int p.2.x, .int p.2.y, .int p.2.z])),
   ("Seg2Elem", dictOf (elemsOfArity m.getElementNodes m.Edges 2)),
   ("Seg3Elem", dictOf (elemsOfArity m.getElementNodes m.Edges 3)),
   ("Tria3Elem", dictOf (elemsOfArity m.getElementNodes m.Faces 3)),
   ("Tria6Elem", dictOf (elemsOfArity m.getElementNodes m.Faces 6)),
   ("Quad4Elem", dictOf (elemsOfArity m.getElementNodes m.Faces 4)),
   ("Quad8Elem", dictOf (elemsOfArity m.getElementNodes m.Faces 8)),
   ("Tetra4Elem", dictOf (elemsOfArity m.getElementNodes m.Volumes 4)),
   ("Tetra10Elem", dictOf (elemsOfArity m.getElementNodes m.Volumes 10)),
   ("Hexa8Elem", dictOf (elemsOfArity m.getElementNodes m.Volumes 8)),
   ("Hexa20Elem", dictOf (elemsOfArity m.getElementNodes m.Volumes 20)),
   ("Penta6Elem", dictOf (elemsOfArity m.getElementNodes m.Volumes 6)),
   ("Penta15Elem", dictOf (elemsOfArity m.getElementNodes m.Volumes 15)),
   ("Groups", m.Groups.map fun g : Nat =>
      (.intKey g, listV [.str (m.getGroupName g),
        listV ((m.getGroupElements g).map fun e => .int e)]))]

/-- The index of the last occurrence of `c` in `cs`, `-1` if absent
(Python `str.rfind`). -/
def lastIdxOf (c : Char) (cs : List Char) : Int :=
  match cs.reverse.findIdx? (fun x => x == c) with
  | some j => ((cs.length - 1 - j : Nat) : Int)
  | none => -1

/-- Models `os.path.splitext` (POSIX): split off the extension at the last
dot of the basename, treating a leading run of dots as part of the name. -/
def splitext (p : String) : String × String :=
  let cs := p.data
  let sepIndex := lastIdxOf '/' cs
  let dotIndex := lastIdxOf '.' cs
  if sepIndex < dotIndex then
    let fIdx := (sepIndex + 1).toNat
    let mid := (cs.take dotIndex.toNat).drop fIdx
    if mid.any (fun x => x != '.') then
      (String.mk (cs.take dotIndex.toNat), String.mk (cs.drop dotIndex.toNat))
    else (p, "")
  else (p, "")

/-- Models the tail component of `os.path.split` (POSIX): everything after
the last `'/'`. -/
def pySplitTail (p : String) : String :=
  let cs := p.data
  String.mk (cs.drop ((lastIdxOf '/' cs) + 1).toNat)

/-- A document object as `export` sees it: the result of the
`isDerivedFrom("Fem::FemMeshObject")` test and the `FemMesh` payload. -/
structure DocObject where
  isFemMeshObject : Bool
  FemMesh : FemMesh

/-- The observable outcome of a completed `export` call: the error messages
printed to the console and the file-write effect (destination path and
record dumped), if any. -/
structure ExportResult where
  errors : List String
  written : Option (String × Record)
deriving DecidableEq, Repr

/-- `export(objectslist, fileString)` (named `export_mesh` here, `export` being
a Lean keyword): rejects object lists that are not a
single FEM mesh object with a console error, converts the mesh, and writes
the record when the destination path is nonempty and its extension is
`.json`, or `.yaml`/`.yml` with the YAML library available (`hasYaml`
models the module-level `has_yaml` flag).  `none` models an exception
escaping (only possible from the conversion itself). -/
def export_mesh (objectslist : List DocObject) (fileString : String)
    (hasYaml : Bool) : Option ExportResult :=
  match objectslist with
  | [obj] =>
    if obj.isFemMeshObject = false then
      some { errors := ["No FEM mesh object selected.\n"], written := none }
    else
      match convert_femmesh_to_dict obj.FemMesh with
      | none => none
      | some mesh_data =>
        if fileString = "" then some { errors := [], written := none }
        else
          let fileExtension := (splitext fileString).2
          if pyLower fileExtension = ".json" then
            some { errors := [], written := some (fileString, mesh_data) }
          else if (pyLower fileExtension = ".yaml" ∨ pyLower fileExtension = ".yml")
              ∧ hasYaml then
            some { errors := [], written := some (fileString, mesh_data) }
          else
            some { errors := [], written := none }
  | _ => some { errors := ["This exporter can only export one object.\n"], written := none }

/-- The observable outcome of a completed `import_yaml_json_mesh` call:
console error and progress messages, and the name of the document object
created, if any. -/
structure ImportResult where
  errors : List String
  messages : List String
  created : Option String
deriving DecidableEq, Repr

/-- `import_yaml_json_mesh(fileString)`: dispatches on the lower-cased
extension of the file's basename; `.json`, or `.yaml`/`.yml` with the YAML
library available, load the file's content, any other extension prints an
error and leaves the raw data `{}` — and the function then continues:
it normalizes whatever raw data it has, prints the progress messages, and
hands the result to the mesh constructor, creating a document object named
after the file's stripped basename when construction returns a mesh.

Modelled from the spec: the codecs are out of scope, so `fileContent` is
the raw record the chosen codec would deserialize from the file; and
`importToolsFem.make_femmesh` is repository code not under `src/`,
specified only as `build_mesh(record) -> mesh_handle_or_empty` (spec §6),
so it is passed in as `make_femmesh`, with `none` as the falsy result.
`none` models an exception escaping (from key normalization). -/
def import_yaml_json_mesh (fileString : String) (fileContent : Record)
    (hasYaml : Bool) (make_femmesh : Record → Option Nat) : Option ImportResult :=
  let fileName := pySplitTail fileString
  let fileNameNoExt := (splitext fileName).1
  let fileExtension := (splitext fileName).2
  let loaded : Record × List String :=
    if pyLower fileExtension = ".json" then (fileContent, [])
    else if (pyLower fileExtension = ".yaml" ∨ pyLower fileExtension = ".yml")
        ∧ hasYaml then (fileContent, [])
    else ([], ["Unknown extension, please select other importer.\n"])
  match convert_raw_data_to_mesh_data loaded.1 with
  | none => none
  | some mesh_data =>
    let msgs := ["Converting indices to integer numbers ...", "OK\n"]
    match make_femmesh mesh_data with
    | some _ => some { errors := loaded.2, messages := msgs,
                       created := some fileNameNoExt }
    | none => some { errors := loaded.2, messages := msgs, created := none }

/-- Supported edge arities (the keys of `len_to_edge`). -/
def EdgeAritySupported (gN : Nat → List Nat) (e : Nat) : Prop :=
  (gN e).length = 2 ∨ (gN e).length = 3

/-- Supported face arities (the keys of `len_to_face`). -/
def FaceAritySupported (gN : Nat → List Nat) (f : Nat) : Prop :=
  (gN f).length = 3 ∨ (gN f).length = 6 ∨ (gN f).length = 4 ∨ (gN f).length = 8

/-- Supported volume arities (the keys of `len_to_volume`). -/
def VolumeAritySupported (gN : Nat → List Nat) (v : Nat) : Prop :=
  (gN v).length = 4 ∨ (gN v).length = 10 ∨ (gN v).length = 8 ∨
  (gN v).length = 20 ∨ (gN v).length = 6 ∨ (gN v).length = 15

instance (gN : Nat → List Nat) (e : Nat) : Decidable (EdgeAritySupported gN e) := by
  unfold EdgeAritySupported; infer_instance

instance (gN : Nat → List Nat) (f : Nat) : Decidable (FaceAritySupported gN f) := by
  unfold FaceAritySupported; infer_instance

instance (gN : Nat → List Nat) (v : Nat) : Decidable (VolumeAritySupported gN v) := by
  unfold VolumeAritySupported; infer_instance

lemma elemsOfArity_nil (gN : Nat → List Nat) (a : Nat) :
    elemsOfArity gN [] a = [] := rfl

lemma elemsOfArity_cons (gN : Nat → List Nat) (e : Nat) (es : List Nat) (a : Nat) :
    elemsOfArity gN (e :: es) a =
      (if (gN e).length = a then [(e, gN e)] else []) ++ elemsOfArity gN es a := by
  simp only [elemsOfArity, List.filter_cons]
  split <;> simp_all

lemma analyzeEdges_ok (gN : Nat → List Nat) (es : List Nat) :
    ∀ acc : ElemAcc, (∀ e ∈ es, EdgeAritySupported gN e) →
      analyzeEdges gN es acc = some { acc with
        seg2 := acc.seg2 ++ elemsOfArity gN es 2,
        seg3 := acc.seg3 ++ elemsOfArity gN es 3 } := by
  induction es with
  | nil => intro acc h; simp [analyzeEdges, elemsOfArity]
  | cons e es ih =>
    intro acc h
    have he := h e (List.mem_cons_self e es)
    have hrest : ∀ x ∈ es, EdgeAritySupported gN x :=
      fun x hx => h x (List.mem_cons_of_mem e hx)
    rcases he with h2 | h3
    · simp only [analyzeEdges, h2]
      rw [ih ({ acc with seg2 := acc.seg2 ++ [(e, gN e)] }) hrest]
      simp [elemsOfArity_cons, h2]
    · simp only [analyzeEdges, h3]
      rw [ih ({ acc with seg3 := acc.seg3 ++ [(e, gN e)] }) hrest]
      simp [elemsOfArity_cons, h3]

lemma analyzeFaces_ok (gN : Nat → List Nat) (fs : List Nat) :
    ∀ acc : ElemAcc, (∀ f ∈ fs, FaceAritySupported gN f) →
      analyzeFaces gN fs acc = some { acc with
        tri3 := acc.tri3 ++ elemsOfArity gN fs 3,
        tri6 := acc.tri6 ++ elemsOfArity gN fs 6,
        quad4 := acc.quad4 ++ elemsOfArity gN fs 4,
        quad8 := acc.quad8 ++ elemsOfArity gN fs 8 } := by
  induction fs with
  | nil => intro acc h; simp [analyzeFaces, elemsOfArity]
  | cons f fs ih =>
    intro acc h
    have he := h f (List.mem_cons_self f fs)
    have hrest : ∀ x ∈ fs, FaceAritySupported gN x :=
      fun x hx => h x (List.mem_cons_of_mem f hx)
    rcases he with h3 | h6 | h4 | h8
    · simp only [analyzeFaces, h3]
      rw [ih ({ acc with tri3 := acc.tri3 ++ [(f, gN f)] }) hrest]
      simp [elemsOfArity_cons, h3]
    · simp only [analyzeFaces, h6]
      rw [ih ({ acc with tri6 := acc.tri6 ++ [(f, gN f)] }) hrest]
      simp [elemsOfArity_cons, h6]
    · simp only [analyzeFaces, h4]
      rw [ih ({ acc with quad4 := acc.quad4 ++ [(f, gN f)] }) hrest]
      simp [elemsOfArity_cons, h4]
    · simp only [analyzeFaces, h8]
      rw [ih ({ acc with quad8 := acc.quad8 ++ [(f, gN f)] }) hrest]
      simp [elemsOfArity_cons, h8]

lemma analyzeVolumes_ok (gN : Nat → List Nat) (vs : List Nat) :
    ∀ acc : ElemAcc, (∀ v ∈ vs, VolumeAritySupported gN v) →
      analyzeVolumes gN vs acc = some { acc with
        tet4 := acc.tet4 ++ elemsOfArity gN vs 4,
        tet10 := acc.tet10 ++ elemsOfArity gN vs 10,
        hex8 := acc.hex8 ++ elemsOfArity gN vs 8,
        hex20 := acc.hex20 ++ elemsOfArity gN vs 20,
        pent6 := acc.pent6 ++ elemsOfArity gN vs 6,
        pent15 := acc.pent15 ++ elemsOfArity gN vs 15 } := by
  induction vs with
  | nil => intro acc h; simp [analyzeVolumes, elemsOfArity]
  | cons v vs ih =>
    intro acc h
    have he := h v (List.mem_cons_self v vs)
    have hrest : ∀ x ∈ vs, VolumeAritySupported gN x :=
      fun x hx => h x (List.mem_cons_of_mem v hx)
    rcases he with h4 | h10 | h8 | h20 | h6 | h15
    · simp only [analyzeVolumes, h4]
      rw [ih ({ acc with tet4 := acc.tet4 ++ [(v, gN v)] }) hrest]
      simp [elemsOfArity_cons, h4]
    · simp only [analyzeVolumes, h10]
      rw [ih ({ acc with tet10 := acc.tet10 ++ [(v, gN v)] }) hrest]
      simp [elemsOfArity_cons, h10]
    · simp only [analyzeVolumes, h8]
      rw [ih ({ acc with hex8 := acc.hex8 ++ [(v, gN v)] }) hrest]
      simp [elemsOfArity_cons, h8]
    · simp only [analyzeVolumes, h20]
      rw [ih ({ acc with hex20 := acc.hex20 ++ [(v, gN v)] }) hrest]
      simp [elemsOfArity_cons, h20]
    · simp only [analyzeVolumes, h6]
      rw [ih ({ acc with pent6 := acc.pent6 ++ [(v, gN v)] }) hrest]
      simp [elemsOfArity_cons, h6]
    · simp only [analyzeVolumes, h15]
      rw [ih ({ acc with pent15 := acc.pent15 ++ [(v, gN v)] }) hrest]
      simp [elemsOfArity_cons, h15]

lemma analyzeEdges_err (gN : Nat → List Nat) (es : List Nat) :
    ∀ acc : ElemAcc, (∃ e ∈ es, ¬ EdgeAritySupported gN e) →
      analyzeEdges gN es acc = none := by
  induction es with
  | nil => intro acc h; simp at h
  | cons e es ih =>
    intro acc h
    rcases h with ⟨x, hx, hbad⟩
    rcases List.mem_cons.mp hx with rfl | hxs
    · rw [EdgeAritySupported] at hbad
      push_neg at hbad
      simp [analyzeEdges, hbad.1, hbad.2]
    · by_cases h2 : (gN e).length = 2
      · simp only [analyzeEdges, h2]
        exact ih _ ⟨x, hxs, hbad⟩
      · by_cases h3 : (gN e).length = 3
        · simp only [analyzeEdges, h3]
          exact ih _ ⟨x, hxs, hbad⟩
        · simp [analyzeEdges, h2, h3]

lemma analyzeFaces_err (gN : Nat → List Nat) (fs : List Nat) :
    ∀ acc : ElemAcc, (∃ f ∈ fs, ¬ FaceAritySupported gN f) →
      analyzeFaces gN fs acc = none := by
  induction fs with
  | nil => intro acc h; simp at h
  | cons f fs ih =>
    intro acc h
    rcases h with ⟨x, hx, hbad⟩
    rcases List.mem_cons.mp hx with rfl | hxs
    · rw [FaceAritySupported] at hbad
      push_neg at hbad
      simp [analyzeFaces, hbad.1, hbad.2.1, hbad.2.2.1, hbad.2.2.2]
    · by_cases h3 : (gN f).length = 3
      · simp only [analyzeFaces, h3]
        exact ih _ ⟨x, hxs, hbad⟩
      · by_cases h6 : (gN f).length = 6
        · simp only [analyzeFaces, h6]
          exact ih _ ⟨x, hxs, hbad⟩
        · by_cases h4 : (gN f).length = 4
          · simp only [analyzeFaces, h4]
            exact ih _ ⟨x, hxs, hbad⟩
          · by_cases h8 : (gN f).length = 8
            · simp only [analyzeFaces, h8]
              exact ih _ ⟨x, hxs, hbad⟩
            · simp [analyzeFaces, h3, h6, h4, h8]

lemma analyzeVolumes_err (gN : Nat → List Nat) (vs : List Nat) :
    ∀ acc : ElemAcc, (∃ v ∈ vs, ¬ VolumeAritySupported gN v) →
      analyzeVolumes gN vs acc = none := by
  induction vs with
  | nil => intro acc h; simp at h
  | cons v vs ih =>
    intro acc h
    rcases h with ⟨x, hx, hbad⟩
    rcases List.mem_cons.mp hx with rfl | hxs
    · rw [VolumeAritySupported] at hbad
      push_neg at hbad
      simp [analyzeVolumes, hbad.1, hbad.2.1, hbad.2.2.1, hbad.2.2.2.1,
        hbad.2.2.2.2.1, hbad.2.2.2.2.2]
    · by_cases h4 : (gN v).length = 4
      · simp only [analyzeVolumes, h4]
        exact ih _ ⟨x, hxs, hbad⟩
      · by_cases h10 : (gN v).length = 10
        · simp only [analyzeVolumes, h10]
          exact ih _ ⟨x, hxs, hbad⟩
        · by_cases h8 : (gN v).length = 8
          · simp only [analyzeVolumes, h8]
            exact ih _ ⟨x, hxs, hbad⟩
          · by_cases h20 : (gN v).length = 20
            · simp only [analyzeVolumes, h20]
              exact ih _ ⟨x, hxs, hbad⟩
            · by_cases h6 : (gN v).length = 6
              · simp only [analyzeVolumes, h6]
                exact ih _ ⟨x, hxs, hbad⟩
              · by_cases h15 : (gN v).length = 15
                · simp only [analyzeVolumes, h15]
                  exact ih _ ⟨x, hxs, hbad⟩
                · simp [analyzeVolumes, h4, h10, h8, h20, h6, h15]

lemma normBucket_ok (b : Bucket) (h : ∀ q ∈ b, (pyIntOfKey q.1).isSome) :
    normBucket b = some (normBucketSpec b) := by
  induction b with
  | nil => simp [normBucket, normBucketSpec]
  | cons q rest ih =>
    obtain ⟨k, v⟩ := q
    have hk := h (k, v) (List.mem_cons_self _ _)
    obtain ⟨n, hn⟩ := Option.isSome_iff_exists.mp hk
    have hrest := fun x hx => h x (List.mem_cons_of_mem (k, v) hx)
    simp [normBucket, hn, normBucketSpec, ih hrest]

lemma normBucket_err (b : Bucket) (h : ∃ q ∈ b, pyIntOfKey q.1 = none) :
    normBucket b = none := by
  induction b with
  | nil => simp at h
  | cons q rest ih =>
    obtain ⟨k, v⟩ := q
    rcases h with ⟨x, hx, hbad⟩
    rcases List.mem_cons.mp hx with rfl | hxs
    · simp [normBucket, hbad]
    · cases hk : pyIntOfKey k with
      | none => simp [normBucket, hk]
      | some n => simp [normBucket, hk, ih ⟨x, hxs, hbad⟩]

lemma convert_raw_ok (r : Record)
    (h : ∀ p ∈ r, pyLower p.1 ≠ "groups" → ∀ q ∈ p.2, (pyIntOfKey q.1).isSome) :
    convert_raw_data_to_mesh_data r = some (normalizeSpec r) := by
  induction r with
  | nil => simp [convert_raw_data_to_mesh_data, normalizeSpec]
  | cons p rest ih =>
    obtain ⟨n, b⟩ := p
    have hrest := fun x hx => h x (List.mem_cons_of_mem (n, b) hx)
    by_cases hg : pyLower n = "groups"
    · simp [convert_raw_data_to_mesh_data, normalizeSpec, hg, ih hrest]
    · have hb := h (n, b) (List.mem_cons_self _ _) hg
      simp [convert_raw_data_to_mesh_data, normalizeSpec, hg,
        normBucket_ok b hb, ih hrest]

lemma convert_raw_err (r : Record)
    (h : ∃ p ∈ r, pyLower p.1 ≠ "groups" ∧ ∃ q ∈ p.2, pyIntOfKey q.1 = none) :
    convert_raw_data_to_mesh_data r = none := by
  induction r with
  | nil => simp at h
  | cons p rest ih =>
    obtain ⟨n, b⟩ := p
    rcases h with ⟨x, hx, hng, hbad⟩
    rcases List.mem_cons.mp hx with rfl | hxs
    · simp [convert_raw_data_to_mesh_data, hng, normBucket_err b hbad]
    · by_cases hg : pyLower n = "groups"
      · simp [convert_raw_data_to_mesh_data, hg]
        exact ih ⟨x, hxs, hng, hbad⟩
      · cases hnb : normBucket b with
        | none => simp [convert_raw_data_to_mesh_data, hg, hnb]
        | some bb =>
          simp [convert_raw_data_to_mesh_data, hg, hnb, ih ⟨x, hxs, hng, hbad⟩]

/-- Every key of the bucket is an `int` key. -/
def AllIntKeys (b : Bucket) : Prop := ∀ q ∈ b, ∃ i : Int, q.1 = .intKey i

lemma strKeysBucket_parses (b : Bucket) (h : AllIntKeys b) :
    ∀ q ∈ strKeysBucket b, (pyIntOfKey q.1).isSome := by
  intro q hq
  simp only [strKeysBucket, List.mem_map] at hq
  obtain ⟨x, hx, rfl⟩ := hq
  obtain ⟨i, hi⟩ := h x hx
  simp [keyToStr, hi, pyIntOfKey, pyInt_intStr]

lemma normBucketSpec_strKeys (b : Bucket) (h : AllIntKeys b) :
    normBucketSpec (strKeysBucket b) = b := by
  induction b with
  | nil => simp [normBucketSpec, strKeysBucket]
  | cons q rest ih =>
    obtain ⟨k, v⟩ := q
    obtain ⟨i, hi⟩ := h (k, v) (List.mem_cons_self _ _)
    simp only at hi
    subst hi
    have hrest := fun x hx => h x (List.mem_cons_of_mem (PyKey.intKey i, v) hx)
    simp [normBucketSpec, strKeysBucket, keyToStr, pyIntOfKey, pyInt_intStr] at ih ⊢
    exact ih hrest

lemma codec_roundtrip_cons (n : String) (b : Bucket) (rest : Record) :
    codec_roundtrip ((n, b) :: rest) =
      (n, strKeysBucket b) :: codec_roundtrip rest := rfl

lemma normalizeSpec_codec (r : Record) (h : ∀ p ∈ r, AllIntKeys p.2) :
    normalizeSpec (codec_roundtrip r) = dropGroups r := by
  induction r with
  | nil => simp [normalizeSpec, codec_roundtrip, dropGroups]
  | cons p rest ih =>
    obtain ⟨n, b⟩ := p
    have hb := h (n, b) (List.mem_cons_self _ _)
    have hrest := fun x hx => h x (List.mem_cons_of_mem (n, b) hx)
    rw [codec_roundtrip_cons]
    by_cases hg : pyLower n = "groups"
    · simp [normalizeSpec, dropGroups, hg, ih hrest]
    · simp [normalizeSpec, dropGroups, hg,
        normBucketSpec_strKeys b hb, ih hrest]

lemma codec_parses (r : Record) (h : ∀ p ∈ r, AllIntKeys p.2) :
    ∀ p ∈ codec_roundtrip r, pyLower p.1 ≠ "groups" →
      ∀ q ∈ p.2, (pyIntOfKey q.1).isSome := by
  intro p hp hng
  simp only [codec_roundtrip, List.mem_map] at hp
  obtain ⟨x, hx, rfl⟩ := hp
  exact strKeysBucket_parses x.2 (h x hx)

/-- The list of bucket pairs a successful conversion returns, as a function
of the accumulated element lists. -/
def recordOf (m : FemMesh) (acc : ElemAcc) : Record :=
  [("Nodes", m.Nodes.map fun p =>
      (.intKey p.1, listV [.int p.2.x, .int p.2.y, .int p.2.z])),
   ("Seg2Elem", dictOf acc.seg2),
   ("Seg3Elem", dictOf acc.seg3),
   ("Tria3Elem", dictOf acc.tri3),
   ("Tria6Elem", dictOf acc.tri6),
   ("Quad4Elem", dictOf acc.quad4),
   ("Quad8Elem", dictOf acc.quad8),
   ("Tetra4Elem", dictOf acc.tet4),
   ("Tetra10Elem", dictOf acc.tet10),
   ("Hexa8Elem", dictOf acc.hex8),
   ("Hexa20Elem", dictOf acc.hex20),
   ("Penta6Elem", dictOf acc.pent6),
   ("Penta15Elem", dictOf acc.pent15),
   ("Groups", m.Groups.map fun g : Nat =>
      (.intKey g, listV [.str (m.getGroupName g),
        listV ((m.getGroupElements g).map fun e => .int e)]))]

lemma convert_some_shape (m : FemMesh) (r : Record)
    (h : convert_femmesh_to_dict m = some r) :
    ∃ acc : ElemAcc, r = recordOf m acc := by
  rw [convert_femmesh_to_dict] at h
  cases hE : analyzeEdges m.getElementNodes m.Edges
      ⟨[], [], [], [], [], [], [], [], [], [], [], []⟩ with
  | none => rw [hE] at h; simp at h
  | some acc1 =>
    rw [hE, Option.some_bind] at h
    cases hF : analyzeFaces m.getElementNodes m.Faces acc1 with
    | none => rw [hF] at h; simp at h
    | some acc2 =>
      rw [hF, Option.some_bind] at h
      cases hV : analyzeVolumes m.getElementNodes m.Volumes acc2 with
      | none => rw [hV] at h; simp at h
      | some acc3 =>
        rw [hV, Option.some_bind, Option.some.injEq] at h
        exact ⟨acc3, h.symm⟩

lemma allIntKeys_mapIntKey {α : Type} (l : List α) (f : α → Nat) (g : α → PyVal) :
    AllIntKeys (l.map fun x => (PyKey.intKey (f x), g x)) := by
  intro q hq
  simp only [List.mem_map] at hq
  obtain ⟨x, hx, rfl⟩ := hq
  exact ⟨f x, rfl⟩

lemma allIntKeys_dictOf (l : List (Nat × List Nat)) : AllIntKeys (dictOf l) := by
  intro q hq
  simp only [dictOf, List.mem_map] at hq
  obtain ⟨x, hx, rfl⟩ := hq
  exact ⟨x.1, rfl⟩

lemma convert_allIntKeys (m : FemMesh) (r : Record)
    (h : convert_femmesh_to_dict m = some r) :
    ∀ p ∈ r, AllIntKeys p.2 := by
  obtain ⟨acc, rfl⟩ := convert_some_shape m r h
  intro p hp
  simp only [recordOf, List.mem_cons, List.not_mem_nil, or_false] at hp
  rcases hp with rfl | rfl | rfl | rfl | rfl | rfl | rfl | rfl | rfl | rfl |
    rfl | rfl | rfl | rfl
  · exact allIntKeys_mapIntKey m.Nodes (fun p => p.1)
      (fun p => listV [.int p.2.x, .int p.2.y, .int p.2.z])
  · exact allIntKeys_dictOf acc.seg2
  · exact allIntKeys_dictOf acc.seg3
  · exact allIntKeys_dictOf acc.tri3
  · exact allIntKeys_dictOf acc.tri6
  · exact allIntKeys_dictOf acc.quad4
  · exact allIntKeys_dictOf acc.quad8
  · exact allIntKeys_dictOf acc.tet4
  · exact allIntKeys_dictOf acc.tet10
  · exact allIntKeys_dictOf acc.hex8
  · exact allIntKeys_dictOf acc.hex20
  · exact allIntKeys_dictOf acc.pent6
  · exact allIntKeys_dictOf acc.pent15
  · exact allIntKeys_mapIntKey m.Groups (fun g => g)
      (fun g => listV [.str (m.getGroupName g),
        listV ((m.getGroupElements g).map fun e => .int e)])

lemma convert_eq_spec (m : FemMesh)
    (hE : ∀ e ∈ m.Edges, EdgeAritySupported m.getElementNodes e)
    (hF : ∀ f ∈ m.Faces, FaceAritySupported m.getElementNodes f)
    (hV : ∀ v ∈ m.Volumes, VolumeAritySupported m.getElementNodes v) :
    convert_femmesh_to_dict m = some (spec_record m) := by
  rw [convert_femmesh_to_dict,
    analyzeEdges_ok m.getElementNodes m.Edges
      ⟨[], [], [], [], [], [], [], [], [], [], [], []⟩ hE, Option.some_bind,
    analyzeFaces_ok m.getElementNodes m.Faces _ hF, Option.some_bind,
    analyzeVolumes_ok m.getElementNodes m.Volumes _ hV, Option.some_bind]
  simp [spec_record]

/-- `true` exactly for `int` keys (Python `isinstance(k, int)`). -/
def PyKey.isIntKey : PyKey → Bool
  | .intKey _ => true
  | .strKey _ => false

lemma isIntKey_exists {k : PyKey} (h : k.isIntKey = true) : ∃ i : Int, k = .intKey i := by
  cases k with
  | intKey i => exact ⟨i, rfl⟩
  | strKey s => simp [PyKey.isIntKey] at h

lemma normBucketSpec_id (b : Bucket) (h : AllIntKeys b) : normBucketSpec b = b := by
  induction b with
  | nil => rfl
  | cons q rest ih =>
    obtain ⟨k, v⟩ := q
    obtain ⟨i, hi⟩ := h (k, v) (List.mem_cons_self _ _)
    simp only at hi
    subst hi
    have hrest := fun x hx => h x (List.mem_cons_of_mem (PyKey.intKey i, v) hx)
    simp [normBucketSpec, pyIntOfKey] at ih ⊢
    exact ih hrest

lemma normalizeSpec_eq_dropGroups (r : Record)
    (h : ∀ p ∈ r, pyLower p.1 ≠ "groups" → AllIntKeys p.2) :
    normalizeSpec r = dropGroups r := by
  induction r with
  | nil => rfl
  | cons p rest ih =>
    obtain ⟨n, b⟩ := p
    have hrest := fun x hx => h x (List.mem_cons_of_mem (n, b) hx)
    by_cases hg : pyLower n = "groups"
    · simp [normalizeSpec, dropGroups, hg, ih hrest]
    · have hb := h (n, b) (List.mem_cons_self _ _) hg
      simp [normalizeSpec, dropGroups, hg, normBucketSpec_id b hb, ih hrest]

lemma mem_dropGroups {r : Record} {p : String × Bucket} (h : p ∈ dropGroups r) :
    p ∈ r ∧ pyLower p.1 ≠ "groups" := by
  induction r with
  | nil => simp [dropGroups] at h
  | cons q rest ih =>
    obtain ⟨n, b⟩ := q
    by_cases hg : pyLower n = "groups"
    · simp only [dropGroups, hg, if_pos rfl] at h
      have := ih (by simpa [hg] using h)
      exact ⟨List.mem_cons_of_mem _ this.1, this.2⟩
    · simp only [dropGroups, hg, if_neg hg] at h
      rcases List.mem_cons.mp h with rfl | hrest
      · exact ⟨List.mem_cons_self _ _, hg⟩
      · have := ih hrest
        exact ⟨List.mem_cons_of_mem _ this.1, this.2⟩

/-- Scenario A of the spec: one 2-node edge (id 5), one triangle face
(id 6), one tetrahedron (id 7), four nodes, one group `0 ↦ ("Fixed", [5])`. -/
def scenarioAMesh : FemMesh :=
  { Edges := [5]
    Faces := [6]
    Volumes := [7]
    getElementNodes := fun e =>
      if e = 5 then [1, 2]
      else if e = 6 then [1, 2, 3]
      else if e = 7 then [1, 2, 3, 4]
      else []
    Nodes := [(1, ⟨0, 0, 0⟩), (2, ⟨1, 0, 0⟩), (3, ⟨0, 1, 0⟩), (4, ⟨0, 0, 1⟩)]
    Groups := [0]
    getGroupName := fun _ => "Fixed"
    getGroupElements := fun g => if g = 0 then [5] else [] }

/-- The record the spec's Scenario A states `convert` must produce. -/
def scenarioARecord : Record :=
  [("Nodes", [(.intKey 1, listV [.int 0, .int 0, .int 0]),
              (.intKey 2, listV [.int 1, .int 0, .int 0]),
              (.intKey 3, listV [.int 0, .int 1, .int 0]),
              (.intKey 4, listV [.int 0, .int 0, .int 1])]),
   ("Seg2Elem", [(.intKey 5, tupleV [1, 2])]),
   ("Seg3Elem", []),
   ("Tria3Elem", [(.intKey 6, tupleV [1, 2, 3])]),
   ("Tria6Elem", []),
   ("Quad4Elem", []),
   ("Quad8Elem", []),
   ("Tetra4Elem", [(.intKey 7, tupleV [1, 2, 3, 4])]),
   ("Tetra10Elem", []),
   ("Hexa8Elem", []),
   ("Hexa20Elem", []),
   ("Penta6Elem", []),
   ("Penta15Elem", []),
   ("Groups", [(.intKey 0, listV [.str "Fixed", listV [.int 5]])])]

/-- Scenario E of the spec: a mesh whose face list contains a 5-node
element (an arity absent from the face table). -/
def pyramidFaceMesh : FemMesh :=
  { Edges := []
    Faces := [9]
    Volumes := []
    getElementNodes := fun f => if f = 9 then [1, 2, 3, 4, 5] else []
    Nodes := [(1, ⟨0, 0, 0⟩), (2, ⟨1, 0, 0⟩), (3, ⟨1, 1, 0⟩),
              (4, ⟨0, 1, 0⟩), (5, ⟨0, 0, 1⟩)]
    Groups := []
    getGroupName := fun _ => ""
    getGroupElements := fun _ => [] }

/-- A mesh with no elements at all. -/
def emptyMesh : FemMesh :=
  { Edges := []
    Faces := []
    Volumes := []
    getElementNodes := fun _ => []
    Nodes := []
    Groups := []
    getGroupName := fun _ => ""
    getGroupElements := fun _ => [] }

/-- The record `convert` produces for `emptyMesh`. -/
def emptyMeshRecord : Record :=
  [("Nodes", []), ("Seg2Elem", []), ("Seg3Elem", []), ("Tria3Elem", []),
   ("Tria6Elem", []), ("Quad4Elem", []), ("Quad8Elem", []),
   ("Tetra4Elem", []), ("Tetra10Elem", []), ("Hexa8Elem", []),
   ("Hexa20Elem", []), ("Penta6Elem", []), ("Penta15Elem", []),
   ("Groups", [])]

/-- A raw string-keyed record with a `Groups` bucket, as a deserializer
would produce it. -/
def rawWithGroups : Record :=
  [("Nodes", [(.strKey "1", .int 7)]),
   ("Groups", [(.strKey "0", .int 9)])]

/-- A raw record whose `Nodes` bucket has a key `int()` cannot parse. -/
def rawBadKey : Record :=
  [("Nodes", [(.strKey "abc", .int 0)])]

/-- A record whose non-Groups buckets already carry integer keys. -/
def rawIntKeys : Record :=
  [("Seg2Elem", [(.intKey 5, tupleV [1, 2])]),
   ("Groups", [(.intKey 0, .int 1)])]

/-- C1 (counterexample): at Scenario A's mesh, normalizing the
deserialization of the serialization of `convert(M)` does NOT yield a
record equal to `convert(M)` up to key type in every bucket: the `Groups`
bucket is missing from the normalizer's output, so the records differ even
after erasing key types on both sides. -/
theorem roundtrip_including_groups_fails :
    convert_femmesh_to_dict scenarioAMesh = some scenarioARecord ∧
    convert_raw_data_to_mesh_data (codec_roundtrip scenarioARecord) =
      some (dropGroups scenarioARecord) ∧
    eraseKeyTypes (dropGroups scenarioARecord) ≠ eraseKeyTypes scenarioARecord :=
  ⟨by decide, by decide, by decide⟩

/-- C1 (amended): for every mesh whose conversion succeeds, normalizing the
deserialization of the serialization of `convert(M)` yields exactly
`convert(M)` with the `Groups` bucket removed — equality is exact (keys
restored to integers) on every non-Groups bucket, and `Groups` is dropped
by the normalizer rather than reconstructed. -/
theorem roundtrip_drops_groups (m : FemMesh) (r : Record)
    (h : convert_femmesh_to_dict m = some r) :
    convert_raw_data_to_mesh_data (codec_roundtrip r) = some (dropGroups r) := by
  have hA := convert_allIntKeys m r h
  rw [convert_raw_ok (codec_roundtrip r) (codec_parses r hA),
    normalizeSpec_codec r hA]

/-- C1 (witness): the amended round-trip law instantiated at Scenario A. -/
theorem roundtrip_drops_groups_witness :
    convert_femmesh_to_dict scenarioAMesh = some scenarioARecord ∧
    convert_raw_data_to_mesh_data (codec_roundtrip scenarioARecord) =
      some (dropGroups scenarioARecord) :=
  ⟨by decide, roundtrip_drops_groups scenarioAMesh scenarioARecord (by decide)⟩

/-- C2 (counterexample): on a raw record with a `Groups` bucket, the
normalizer's output contains no `Groups` bucket at all (instead of the
claimed unchanged pass-through); the non-Groups bucket does appear with
integer keys. -/
theorem normalizer_groups_passthrough_fails :
    convert_raw_data_to_mesh_data rawWithGroups =
      some [("Nodes", [(.intKey 1, .int 7)])] ∧
    "Groups" ∈ rawWithGroups.map Prod.fst ∧
    "Groups" ∉ ([("Nodes", [(PyKey.intKey 1, PyVal.int 7)])] : Record).map Prod.fst :=
  ⟨by decide, by decide, by decide⟩

/-- C2 (amended): for every raw record all of whose non-Groups bucket keys
are parsable, the normalizer succeeds and returns the record in which every
bucket named (case-insensitively) `groups` is omitted and every other
bucket keeps its name and values with its keys converted to integers
(`normalizeSpec` states exactly that transformation). -/
theorem normalizer_omits_groups (raw : Record)
    (h : ∀ p ∈ raw, pyLower p.1 ≠ "groups" → ∀ q ∈ p.2, (pyIntOfKey q.1).isSome) :
    convert_raw_data_to_mesh_data raw = some (normalizeSpec raw) :=
  convert_raw_ok raw h

/-- C2 (witness): the amended normalizer contract instantiated at a
two-bucket raw record with string keys. -/
theorem normalizer_omits_groups_witness :
    (∀ p ∈ rawWithGroups, pyLower p.1 ≠ "groups" →
      ∀ q ∈ p.2, (pyIntOfKey q.1).isSome) ∧
    convert_raw_data_to_mesh_data rawWithGroups =
      some [("Nodes", [(.intKey 1, .int 7)])] :=
  ⟨by decide, (normalizer_omits_groups rawWithGroups (by decide)).trans (by decide)⟩

/-- C3: for every mesh whose edges, faces and volumes all have arities in
the table, `convert` returns exactly the record in which each element sits,
as the pair (id, node tuple), in the bucket the table selects for its
category and arity, with node coordinates and groups copied without
transformation (`spec_record` states that table). -/
theorem convert_classifies_by_arity (m : FemMesh)
    (hE : ∀ e ∈ m.Edges, EdgeAritySupported m.getElementNodes e)
    (hF : ∀ f ∈ m.Faces, FaceAritySupported m.getElementNodes f)
    (hV : ∀ v ∈ m.Volumes, VolumeAritySupported m.getElementNodes v) :
    convert_femmesh_to_dict m = some (spec_record m) :=
  convert_eq_spec m hE hF hV

/-- C3 (witness): Scenario A — one 2-node edge, one 3-node face, one 4-node
volume — produces exactly the record the spec states. -/
theorem convert_classifies_by_arity_witness :
    ((∀ e ∈ scenarioAMesh.Edges, EdgeAritySupported scenarioAMesh.getElementNodes e) ∧
     (∀ f ∈ scenarioAMesh.Faces, FaceAritySupported scenarioAMesh.getElementNodes f) ∧
     (∀ v ∈ scenarioAMesh.Volumes, VolumeAritySupported scenarioAMesh.getElementNodes v)) ∧
    convert_femmesh_to_dict scenarioAMesh = some scenarioARecord :=
  ⟨⟨by decide, by decide, by decide⟩,
    (convert_classifies_by_arity scenarioAMesh (by decide) (by decide)
      (by decide)).trans (by decide)⟩

/-- C4: a mesh containing some element whose arity is not listed for its
category makes `convert` fail with the lookup error (`none`), returning no
partial record. -/
theorem convert_fails_on_unsupported_arity (m : FemMesh)
    (h : (∃ e ∈ m.Edges, ¬ EdgeAritySupported m.getElementNodes e) ∨
         (∃ f ∈ m.Faces, ¬ FaceAritySupported m.getElementNodes f) ∨
         (∃ v ∈ m.Volumes, ¬ VolumeAritySupported m.getElementNodes v)) :
    convert_femmesh_to_dict m = none := by
  rcases h with h1 | h2 | h3
  · rw [convert_femmesh_to_dict, analyzeEdges_err _ _ _ h1]; rfl
  · by_cases hEbad : ∃ e ∈ m.Edges, ¬ EdgeAritySupported m.getElementNodes e
    · rw [convert_femmesh_to_dict, analyzeEdges_err _ _ _ hEbad]; rfl
    · push_neg at hEbad
      rw [convert_femmesh_to_dict, analyzeEdges_ok _ _ _ hEbad, Option.some_bind,
        analyzeFaces_err _ _ _ h2]; rfl
  · by_cases hEbad : ∃ e ∈ m.Edges, ¬ EdgeAritySupported m.getElementNodes e
    · rw [convert_femmesh_to_dict, analyzeEdges_err _ _ _ hEbad]; rfl
    · push_neg at hEbad
      by_cases hFbad : ∃ f ∈ m.Faces, ¬ FaceAritySupported m.getElementNodes f
      · rw [convert_femmesh_to_dict, analyzeEdges_ok _ _ _ hEbad, Option.some_bind,
          analyzeFaces_err _ _ _ hFbad]; rfl
      · push_neg at hFbad
        rw [convert_femmesh_to_dict, analyzeEdges_ok _ _ _ hEbad, Option.some_bind,
          analyzeFaces_ok _ _ _ hFbad, Option.some_bind,
          analyzeVolumes_err _ _ _ h3]; rfl

/-- C4 (witness): Scenario E — a 5-node element among the faces — makes the
whole conversion fail. -/
theorem convert_fails_on_unsupported_arity_witness :
    (∃ f ∈ pyramidFaceMesh.Faces,
      ¬ FaceAritySupported pyramidFaceMesh.getElementNodes f) ∧
    convert_femmesh_to_dict pyramidFaceMesh = none :=
  ⟨by decide, convert_fails_on_unsupported_arity pyramidFaceMesh
    (Or.inr (Or.inl (by decide)))⟩

/-- C5: every record a successful conversion returns has exactly the
fourteen bucket names `Nodes`, the twelve element buckets, and `Groups`,
in the source's insertion order, each present (possibly empty). -/
theorem convert_bucket_names (m : FemMesh) (r : Record)
    (h : convert_femmesh_to_dict m = some r) :
    r.map Prod.fst =
      ["Nodes", "Seg2Elem", "Seg3Elem", "Tria3Elem", "Tria6Elem",
       "Quad4Elem", "Quad8Elem", "Tetra4Elem", "Tetra10Elem", "Hexa8Elem",
       "Hexa20Elem", "Penta6Elem", "Penta15Elem", "Groups"] := by
  obtain ⟨acc, rfl⟩ := convert_some_shape m r h
  rfl

/-- C5 (witness): the bucket-name invariant at the empty mesh, where all
fourteen buckets are present and empty. -/
theorem convert_bucket_names_witness :
    convert_femmesh_to_dict emptyMesh = some emptyMeshRecord ∧
    emptyMeshRecord.map Prod.fst =
      ["Nodes", "Seg2Elem", "Seg3Elem", "Tria3Elem", "Tria6Elem",
       "Quad4Elem", "Quad8Elem", "Tetra4Elem", "Tetra10Elem", "Hexa8Elem",
       "Hexa20Elem", "Penta6Elem", "Penta15Elem", "Groups"] :=
  ⟨by decide, convert_bucket_names emptyMesh emptyMeshRecord (by decide)⟩

/-- C6: calling `export` with an object list that is not exactly one
object, or whose single object is not a FEM mesh object, prints exactly one
console error, writes no file, and raises no exception. -/
theorem export_rejects_bad_selection (objs : List DocObject)
    (fileString : String) (hasYaml : Bool)
    (h : objs.length ≠ 1 ∨ ∃ o, objs = [o] ∧ o.isFemMeshObject = false) :
    export_mesh objs fileString hasYaml =
      some { errors := [if objs.length ≠ 1 then
                          "This exporter can only export one object.\n"
                        else "No FEM mesh object selected.\n"],
             written := none } := by
  rcases objs with _ | ⟨a, rest⟩
  · simp [export_mesh]
  · rcases rest with _ | ⟨b, l⟩
    · rcases h with h1 | ⟨o, hEq, hFem⟩
      · simp at h1
      · have ha : a = o := by simpa using hEq
        subst ha
        simp [export_mesh, hFem]
    · have hne : (a :: b :: l).length ≠ 1 := by simp
      simp [export_mesh, hne]

/-- C6 (witness): exporting an empty selection reports the cardinality
error, writes nothing, and completes normally. -/
theorem export_rejects_bad_selection_witness :
    ([] : List DocObject).length ≠ 1 ∧
    export_mesh [] "mesh.json" true =
      some { errors := ["This exporter can only export one object.\n"],
             written := none } :=
  ⟨by decide,
    (export_rejects_bad_selection [] "mesh.json" true (Or.inl (by decide))).trans
      (by decide)⟩

/-- C7: importing a file with extension `.xyz` prints the unknown-extension
error but does NOT abort: the function goes on to normalize the empty raw
record, print the index-conversion progress messages, and hand the result
to the mesh constructor — and when the constructor returns a mesh for the
empty record, a document object named after the file IS created (the
source lacks a `return` after the error report). -/
theorem import_continues_after_unknown_extension :
    import_yaml_json_mesh "mesh.xyz" [] true (fun _ => some 1) =
      some { errors := ["Unknown extension, please select other importer.\n"],
             messages := ["Converting indices to integer numbers ...", "OK\n"],
             created := some "mesh" } := by
  decide

/-- C8: a raw record containing, in some bucket not named
(case-insensitively) `groups`, a key `int()` cannot parse makes the
normalizer fail with the propagating parse error (`none`) — the key is
never coerced to a default. -/
theorem normalizer_fails_on_malformed_key (raw : Record)
    (h : ∃ p ∈ raw, pyLower p.1 ≠ "groups" ∧ ∃ q ∈ p.2, pyIntOfKey q.1 = none) :
    convert_raw_data_to_mesh_data raw = none :=
  convert_raw_err raw h

/-- C8 (witness): the key `"abc"` in a `Nodes` bucket makes normalization
fail. -/
theorem normalizer_fails_on_malformed_key_witness :
    (∃ p ∈ rawBadKey, pyLower p.1 ≠ "groups" ∧
      ∃ q ∈ p.2, pyIntOfKey q.1 = none) ∧
    convert_raw_data_to_mesh_data rawBadKey = none :=
  ⟨by decide, normalizer_fails_on_malformed_key rawBadKey (by decide)⟩

lemma dropGroups_idem (r : Record) : dropGroups (dropGroups r) = dropGroups r := by
  induction r with
  | nil => rfl
  | cons p rest ih =>
    obtain ⟨n, b⟩ := p
    by_cases hg : pyLower n = "groups"
    · simp [dropGroups, hg, ih]
    · simp [dropGroups, hg, ih]

/-- C9: on a record whose non-Groups buckets already carry integer keys the
normalizer succeeds (Python `int()` accepts an `int`), returning every
non-Groups bucket with the same keys and values (and dropping Groups
buckets); running it again on its own output returns that output unchanged,
so normalization is idempotent on such buckets. -/
theorem normalizer_accepts_int_keys (raw : Record)
    (h : ∀ p ∈ raw, pyLower p.1 ≠ "groups" → ∀ q ∈ p.2, q.1.isIntKey = true) :
    convert_raw_data_to_mesh_data raw = some (dropGroups raw) ∧
    convert_raw_data_to_mesh_data (dropGroups raw) = some (dropGroups raw) := by
  have hA : ∀ p ∈ raw, pyLower p.1 ≠ "groups" → AllIntKeys p.2 :=
    fun p hp hng q hq => isIntKey_exists (h p hp hng q hq)
  have hParse : ∀ p ∈ raw, pyLower p.1 ≠ "groups" →
      ∀ q ∈ p.2, (pyIntOfKey q.1).isSome := by
    intro p hp hng q hq
    obtain ⟨i, hi⟩ := hA p hp hng q hq
    simp [hi, pyIntOfKey]
  have hA2 : ∀ p ∈ dropGroups raw, pyLower p.1 ≠ "groups" → AllIntKeys p.2 :=
    fun p hp hng => hA p (mem_dropGroups hp).1 (mem_dropGroups hp).2
  have hParse2 : ∀ p ∈ dropGroups raw, pyLower p.1 ≠ "groups" →
      ∀ q ∈ p.2, (pyIntOfKey q.1).isSome :=
    fun p hp hng q hq => hParse p (mem_dropGroups hp).1 (mem_dropGroups hp).2 q hq
  constructor
  · rw [convert_raw_ok raw hParse, normalizeSpec_eq_dropGroups raw hA]
  · rw [convert_raw_ok (dropGroups raw) hParse2,
      normalizeSpec_eq_dropGroups (dropGroups raw) hA2, dropGroups_idem]

/-- C9 (witness): the idempotence contract at a record with integer-keyed
`Seg2Elem` and an integer-keyed `Groups` bucket. -/
theorem normalizer_accepts_int_keys_witness :
    (∀ p ∈ rawIntKeys, pyLower p.1 ≠ "groups" →
      ∀ q ∈ p.2, q.1.isIntKey = true) ∧
    (convert_raw_data_to_mesh_data rawIntKeys = some (dropGroups rawIntKeys) ∧
     convert_raw_data_to_mesh_data (dropGroups rawIntKeys) =
       some (dropGroups rawIntKeys)) :=
  ⟨by decide, normalizer_accepts_int_keys rawIntKeys (by decide)⟩

/-- A document object of the mesh-bearing kind whose mesh contains the
unsupported 5-node face. -/
def pyramidObj : DocObject := ⟨true, pyramidFaceMesh⟩

/-- A document object of the mesh-bearing kind holding Scenario A's mesh. -/
def scenarioAObj : DocObject := ⟨true, scenarioAMesh⟩

/-- C10 (counterexample): with exactly one mesh-bearing object and the
empty destination path, `export` does NOT always return without an
exception: the mesh is converted before the path is examined, so an
unsupported arity in the mesh makes the lookup error escape (`none`) even
though nothing would have been written. -/
theorem export_empty_path_claim_fails :
    pyramidObj.isFemMeshObject = true ∧
    export_mesh [pyramidObj] "" true = none :=
  ⟨by decide, by decide⟩

/-- C10 (amended): for one mesh-bearing object whose mesh has only
supported element arities, `export` with the empty destination path returns
normally, reports no error and writes no file; the conversion to a record
is still performed first (its failure on unsupported arities is what the
counterexample exhibits). -/
theorem export_empty_path_no_effects (obj : DocObject) (hasYaml : Bool)
    (hFem : obj.isFemMeshObject = true)
    (hE : ∀ e ∈ obj.FemMesh.Edges,
      EdgeAritySupported obj.FemMesh.getElementNodes e)
    (hF : ∀ f ∈ obj.FemMesh.Faces,
      FaceAritySupported obj.FemMesh.getElementNodes f)
    (hV : ∀ v ∈ obj.FemMesh.Volumes,
      VolumeAritySupported obj.FemMesh.getElementNodes v) :
    export_mesh [obj] "" hasYaml = some { errors := [], written := none } := by
  simp [export_mesh, hFem, convert_eq_spec obj.FemMesh hE hF hV]

/-- C10 (witness): the amended no-effect contract at Scenario A's object. -/
theorem export_empty_path_no_effects_witness :
    (scenarioAObj.isFemMeshObject = true ∧
     (∀ e ∈ scenarioAObj.FemMesh.Edges,
       EdgeAritySupported scenarioAObj.FemMesh.getElementNodes e) ∧
     (∀ f ∈ scenarioAObj.FemMesh.Faces,
       FaceAritySupported scenarioAObj.FemMesh.getElementNodes f) ∧
     (∀ v ∈ scenarioAObj.FemMesh.Volumes,
       VolumeAritySupported scenarioAObj.FemMesh.getElementNodes v)) ∧
    export_mesh [scenarioAObj] "" true = some { errors := [], written := none } :=
  ⟨⟨by decide, by decide, by decide, by decide⟩,
    export_empty_path_no_effects scenarioAObj true (by decide) (by decide)
      (by decide) (by decide)⟩
